import Mathlib

/-!
Verification of the resilient JSON recovery parser
(`_parse_json_with_recovery` in `backend/core/ai_services.py`).

The Python function and its helpers are shallowly embedded below.
Strings are modelled as `String` / `List Char` with character indices
(Python string indices are character based).  `json.loads` is modelled
as a total recursive-descent parser `loads : String -> Except JsonError Json`
following CPython's `json` module: same grammar, same acceptance of the
non-standard constants `NaN` / `Infinity` / `-Infinity`, and the same
reported character position for the errors that the recovery code
inspects (in particular `Unterminated string starting at` carries the
index of the opening quote).  A raised `json.JSONDecodeError` is the
`Except.error` case; every call site in the embedded pipeline handles
it exactly where the Python code has a `try`/`except`.

The model has two layers.  `loads` and `parseJsonWithRecovery` model
the decoder's grammar-level behaviour, where every failure is a
`json.JSONDecodeError`; this is the fragment the recovery logic is
written against, and claims about stage selection, candidate
construction and fallback shapes are settled over it.  `loadsD` and
`parseJsonWithRecoveryD` additionally model CPython's recursion limit:
`json.loads` raises `RecursionError` on deeply nested containers, and
because lines 141 and 165 catch only `json.JSONDecodeError` while the
inner repair attempts use bare `except`, that exception propagates
from the first two decode calls to the caller.
-/

/-- Characters that are awkward to write literally are named. -/
def qc : Char := Char.ofNat 34

/-- Single-quote character (ASCII 39). -/
def sqc : Char := Char.ofNat 39

/-- Backslash character (ASCII 92). -/
def bsc : Char := Char.ofNat 92

/-- Backtick character (ASCII 96). -/
def tickc : Char := Char.ofNat 96

/-- The markdown code-fence marker three backticks, as a char list. -/
def fenceMarker : List Char := [tickc, tickc, tickc]

/-- Python `\s` for ASCII text: space, tab, newline, carriage return,
vertical tab, form feed. -/
def isPySpace (c : Char) : Bool :=
  c = ' ' || c = '\t' || c = '\n' || c = '\r' || c = Char.ofNat 11 || c = Char.ofNat 12

/-- Python `\w` restricted to ASCII: letters, digits, underscore. -/
def isWordChar (c : Char) : Bool :=
  c.isAlphanum || c = '_'

/-- Python `str.rstrip()` on a char list. -/
def pyRstripList (l : List Char) : List Char :=
  (l.reverse.dropWhile isPySpace).reverse

/-- Python `str.rstrip()`. -/
def pyRstrip (s : String) : String :=
  String.mk (pyRstripList s.data)

/-- Python `str.strip()` on a char list. -/
def pyStripList (l : List Char) : List Char :=
  pyRstripList (l.dropWhile isPySpace)

/-- Does `hay` contain `needle` as a contiguous substring
(Python `needle in hay`)? -/
def listHasSub (needle : List Char) (hay : List Char) : Bool :=
  if needle.isPrefixOf hay then true
  else
    match hay with
    | [] => false
    | _ :: t => listHasSub needle t

/-- Index of the first occurrence of `needle` in `hay`
(Python `hay.find(needle)`), `none` when absent. -/
def listFindSub (needle : List Char) (hay : List Char) : Option Nat :=
  if needle.isPrefixOf hay then some 0
  else
    match hay with
    | [] => none
    | _ :: t => (listFindSub needle t).map (· + 1)

/-- Index of the last occurrence of `needle` in `hay`
(Python `hay.rfind(needle)`), `none` when absent. -/
def rlistFindSub (needle : List Char) (hay : List Char) : Option Nat :=
  ((List.range (hay.length + 1)).filter (fun k => needle.isPrefixOf (hay.drop k))).getLast?

/-- Index of the last occurrence of the character `c` in `cs`
(Python `s.rfind(c)`), `none` when absent. -/
def rfindIn (cs : List Char) (c : Char) : Option Nat :=
  match cs with
  | [] => none
  | a :: t =>
    match rfindIn t c with
    | some i => some (i + 1)
    | none => if a = c then some 0 else none

/-- Python list read `xs[i]` including negative-index wraparound;
`none` models an `IndexError`. -/
def pyIdx {α : Type} (xs : List α) (i : Int) : Option α :=
  if i < 0 then
    if -i ≤ (xs.length : Int) then xs.get? (xs.length - (-i).toNat) else none
  else xs.get? i.toNat

/-- Python list write `xs[i] = v` including negative-index wraparound;
an out-of-range write (an `IndexError` in Python, unreachable at the
pipeline's call site) leaves the list unchanged. -/
def pySet {α : Type} (xs : List α) (i : Int) (v : α) : List α :=
  if i < 0 then
    if -i ≤ (xs.length : Int) then xs.set (xs.length - (-i).toNat) v else xs
  else xs.set i.toNat v

/-- Python `t.split(chr(10))` on a char list: always at least one
piece, empty pieces preserved. -/
def splitNl : List Char → List (List Char)
  | [] => [[]]
  | c :: t =>
    if c = '\n' then [] :: splitNl t
    else
      match splitNl t with
      | h :: rest => (c :: h) :: rest
      | [] => [[c]]

/-- Python `t.split(chr(10))`, producing strings. -/
def pySplitLines (t : String) : List String :=
  (splitNl t.data).map String.mk

/-- Python `chr(10).join(lines)`. -/
def joinNl (lines : List String) : String :=
  String.mk (List.intercalate ['\n'] (lines.map String.data))

/-- Combine two Python `find` results as the code does:
`min` when both found, the found one when only one is, else nothing. -/
def minOpt : Option Nat → Option Nat → Option Nat
  | some a, some b => some (min a b)
  | some a, none => some a
  | none, some b => some b
  | none, none => none

/-- Combine two Python `rfind` results as the code does:
`max` when both found, the found one when only one is, else nothing. -/
def maxOpt : Option Nat → Option Nat → Option Nat
  | some a, some b => some (max a b)
  | some a, none => some a
  | none, some b => some b
  | none, none => none

/-- Numeric value of a list of decimal digits. -/
def natOfDigits (l : List Char) : Nat :=
  l.foldl (fun acc c => 10 * acc + (c.toNat - 48)) 0

/-- Hex digit value. -/
def hexVal (c : Char) : Option Nat :=
  if c.isDigit then some (c.toNat - 48)
  else if 'a' ≤ c ∧ c ≤ 'f' then some (c.toNat - 87)
  else if 'A' ≤ c ∧ c ≤ 'F' then some (c.toNat - 55)
  else none

/-- JSON values as produced by Python's `json.loads`: `null`, booleans,
numbers (integer literals as `num`, float literals kept as their source
text in `fnum`), strings, arrays, and objects as insertion-ordered
key/value lists (later duplicate keys overwrite in place, as for a
Python `dict`). -/
inductive Json where
  | null : Json
  | bool (b : Bool) : Json
  | num (n : Int) : Json
  | fnum (raw : String) : Json
  | str (s : String) : Json
  | arr (elems : List Json) : Json
  | obj (members : List (String × Json)) : Json
deriving Repr

mutual

/-- Boolean structural equality on `Json`. -/
def Json.beq : Json → Json → Bool
  | .null, .null => true
  | .bool a, .bool b => a == b
  | .num a, .num b => a == b
  | .fnum a, .fnum b => a == b
  | .str a, .str b => a == b
  | .arr xs, .arr ys => Json.beqList xs ys
  | .obj xs, .obj ys => Json.beqMembers xs ys
  | _, _ => false

/-- Boolean structural equality on lists of `Json`. -/
def Json.beqList : List Json → List Json → Bool
  | [], [] => true
  | x :: xs, y :: ys => Json.beq x y && Json.beqList xs ys
  | _, _ => false

/-- Boolean structural equality on object member lists. -/
def Json.beqMembers : List (String × Json) → List (String × Json) → Bool
  | [], [] => true
  | (k1, v1) :: xs, (k2, v2) :: ys =>
    k1 == k2 && Json.beq v1 v2 && Json.beqMembers xs ys
  | _, _ => false

end

mutual

theorem Json.eq_of_beq : ∀ a b : Json, Json.beq a b = true → a = b
  | .null, .null, _ => rfl
  | .bool a, .bool b, h => by
    simp only [Json.beq] at h; exact congrArg Json.bool (by simpa using h)
  | .num a, .num b, h => by
    simp only [Json.beq] at h; exact congrArg Json.num (by simpa using h)
  | .fnum a, .fnum b, h => by
    simp only [Json.beq] at h; exact congrArg Json.fnum (by simpa using h)
  | .str a, .str b, h => by
    simp only [Json.beq] at h; exact congrArg Json.str (by simpa using h)
  | .arr xs, .arr ys, h => by
    simp only [Json.beq] at h; exact congrArg Json.arr (Json.eqList_of_beq xs ys h)
  | .obj xs, .obj ys, h => by
    simp only [Json.beq] at h; exact congrArg Json.obj (Json.eqMembers_of_beq xs ys h)

theorem Json.eqList_of_beq : ∀ xs ys : List Json, Json.beqList xs ys = true → xs = ys
  | [], [], _ => rfl
  | x :: xs, y :: ys, h => by
    simp only [Json.beqList, Bool.and_eq_true] at h
    rw [Json.eq_of_beq x y h.1, Json.eqList_of_beq xs ys h.2]

theorem Json.eqMembers_of_beq :
    ∀ xs ys : List (String × Json), Json.beqMembers xs ys = true → xs = ys
  | [], [], _ => rfl
  | (k1, v1) :: xs, (k2, v2) :: ys, h => by
    simp only [Json.beqMembers, Bool.and_eq_true] at h
    have hk : k1 = k2 := by simpa using h.1.1
    rw [hk, Json.eq_of_beq v1 v2 h.1.2, Json.eqMembers_of_beq xs ys h.2]

end

mutual

theorem Json.beq_refl : ∀ a : Json, Json.beq a a = true
  | .null => rfl
  | .bool a => by simp [Json.beq]
  | .num a => by simp [Json.beq]
  | .fnum a => by simp [Json.beq]
  | .str a => by simp [Json.beq]
  | .arr xs => Json.beqList_refl xs
  | .obj xs => Json.beqMembers_refl xs

theorem Json.beqList_refl : ∀ xs : List Json, Json.beqList xs xs = true
  | [] => rfl
  | x :: xs => by
    simp only [Json.beqList, Bool.and_eq_true]
    exact ⟨Json.beq_refl x, Json.beqList_refl xs⟩

theorem Json.beqMembers_refl : ∀ xs : List (String × Json), Json.beqMembers xs xs = true
  | [] => rfl
  | (k, v) :: xs => by
    simp only [Json.beqMembers, Bool.and_eq_true]
    exact ⟨⟨by simp, Json.beq_refl v⟩, Json.beqMembers_refl xs⟩

end

instance : DecidableEq Json := fun a b =>
  if h : Json.beq a b = true then isTrue (Json.eq_of_beq a b h)
  else isFalse (fun he => h (he ▸ Json.beq_refl a))

/-- A `json.JSONDecodeError`: message and character position.  The
rendered `str(e)` (see `errStr`) appends the line/column/char suffix
exactly as CPython's `JSONDecodeError.__init__` does. -/
structure JsonError where
  msg : String
  pos : Nat
deriving Repr, DecidableEq

instance : DecidableEq (Except JsonError Json) := fun a b =>
  match a, b with
  | .ok x, .ok y =>
    if h : x = y then isTrue (by rw [h])
    else isFalse (fun hh => h (by injection hh))
  | .error x, .error y =>
    if h : x = y then isTrue (by rw [h])
    else isFalse (fun hh => h (by injection hh))
  | .ok _, .error _ => isFalse (fun hh => Except.noConfusion hh)
  | .error _, .ok _ => isFalse (fun hh => Except.noConfusion hh)

/-- Insert into a Python-`dict`-like assoc list: a duplicate key keeps
its original position and gets the new value. -/
def insertPair (acc : List (String × Json)) (k : String) (v : Json) :
    List (String × Json) :=
  match acc with
  | [] => [(k, v)]
  | (k', v') :: t => if k' = k then (k, v) :: t else (k', v') :: insertPair t k v

/-- Skip JSON whitespace (space, tab, newline, carriage return),
tracking the character position. -/
def skipWs : List Char → Nat → List Char × Nat
  | c :: r, p =>
    if c = ' ' || c = '\t' || c = '\n' || c = '\r' then skipWs r (p + 1) else (c :: r, p)
  | [], p => ([], p)

/-- Scan a JSON string body.  `startPos` is the index of the opening
quote; `cs` starts just after it at position `pos`.  Matches CPython's
`py_scanstring`: the `Unterminated string starting at` error carries
the opening quote's index.  (Lone `\uXXXX` surrogate halves, which
Python would keep as lone surrogates, fall back to `Char.ofNat`'s
default; no surviving behaviour in the pipeline depends on them.) -/
def scanString (startPos : Nat) : List Char → Nat → List Char →
    Except JsonError (String × List Char × Nat)
  | [], _, _ => .error ⟨"Unterminated string starting at", startPos⟩
  | c :: rest, pos, acc =>
    if c = qc then .ok (String.mk acc.reverse, rest, pos + 1)
    else if c = bsc then
      match rest with
      | [] => .error ⟨"Unterminated string starting at", startPos⟩
      | e :: rest2 =>
        if e = qc then scanString startPos rest2 (pos + 2) (qc :: acc)
        else if e = bsc then scanString startPos rest2 (pos + 2) (bsc :: acc)
        else if e = '/' then scanString startPos rest2 (pos + 2) ('/' :: acc)
        else if e = 'b' then scanString startPos rest2 (pos + 2) (Char.ofNat 8 :: acc)
        else if e = 'f' then scanString startPos rest2 (pos + 2) (Char.ofNat 12 :: acc)
        else if e = 'n' then scanString startPos rest2 (pos + 2) ('\n' :: acc)
        else if e = 'r' then scanString startPos rest2 (pos + 2) ('\r' :: acc)
        else if e = 't' then scanString startPos rest2 (pos + 2) ('\t' :: acc)
        else if e = 'u' then
          match rest2 with
          | h1 :: h2 :: h3 :: h4 :: rest3 =>
            match hexVal h1, hexVal h2, hexVal h3, hexVal h4 with
            | some a, some b, some c3, some d =>
              scanString startPos rest3 (pos + 6)
                (Char.ofNat (((a * 16 + b) * 16 + c3) * 16 + d) :: acc)
            | _, _, _, _ => .error ⟨"Invalid hex escape", pos + 1⟩
          | _ => .error ⟨"Invalid hex escape", pos + 1⟩
        else .error ⟨"Invalid escape", pos + 1⟩
    else if c.toNat < 32 then .error ⟨"Invalid control character at", pos⟩
    else scanString startPos rest (pos + 1) (c :: acc)

/-- Match CPython's `NUMBER_RE` anchored at the current position:
`(-?(?:0|[1-9]\d*))(\.\d+)?([eE][-+]?\d+)?`.  Integer-only matches
become `Json.num`; matches with a fraction or exponent keep their
matched text in `Json.fnum`. -/
def parseNumber (cs : List Char) (pos : Nat) : Option (Json × List Char × Nat) :=
  let (signChars, cs1) :=
    match cs with
    | '-' :: r => (['-'], r)
    | _ => (([] : List Char), cs)
  match cs1 with
  | c :: _ =>
    if ¬ c.isDigit then none
    else
      let intDigits := if c = '0' then ['0'] else cs1.takeWhile Char.isDigit
      let afterInt := cs1.drop intDigits.length
      let (fracChars, afterFrac) :=
        match afterInt with
        | '.' :: r =>
          let ds := r.takeWhile Char.isDigit
          if ds.isEmpty then (([] : List Char), afterInt)
          else ('.' :: ds, r.drop ds.length)
        | _ => (([] : List Char), afterInt)
      let (expChars, _afterExp) :=
        match afterFrac with
        | e :: r =>
          if e = 'e' || e = 'E' then
            let (sgn, r2) :=
              match r with
              | s :: r2 => if s = '+' || s = '-' then ([s], r2) else (([] : List Char), r)
              | [] => (([] : List Char), r)
            let ds := r2.takeWhile Char.isDigit
            if ds.isEmpty then (([] : List Char), afterFrac)
            else (e :: (sgn ++ ds), r2.drop ds.length)
          else (([] : List Char), afterFrac)
        | [] => (([] : List Char), afterFrac)
      let matched := signChars ++ intDigits ++ fracChars ++ expChars
      let value : Json :=
        if fracChars.isEmpty ∧ expChars.isEmpty then
          Json.num (if signChars.isEmpty then (natOfDigits intDigits : Int)
                    else -(natOfDigits intDigits : Int))
        else Json.fnum (String.mk matched)
      some (value, cs.drop matched.length, pos + matched.length)
  | [] => none

/-- The pending work of the recursive-descent decoder: a value to scan
(CPython `scan_once`), an object body just after its opening brace, the
members of an object starting just after a key's opening quote, an
array body just after its opening bracket, or the remaining elements of
a non-empty array.  A single task type keeps the decoder structurally
recursive on its fuel so that it reduces definitionally. -/
inductive ParseTask where
  | value (cs : List Char) (pos : Nat) : ParseTask
  | objStart (cs : List Char) (pos : Nat) : ParseTask
  | members (cs : List Char) (pos : Nat) (keyStart : Nat)
      (acc : List (String × Json)) : ParseTask
  | arrStart (cs : List Char) (pos : Nat) : ParseTask
  | arrRest (cs : List Char) (pos : Nat) (acc : List Json) : ParseTask

/-- Run one parse task (CPython `scan_once` / `parse_object` /
`parse_array`).  The fuel argument only bounds recursion; `loads`
supplies more fuel than any input can consume.  The error message
texts stand in for CPython's quoted forms (for example
`Expecting comma delimiter` for the form with a quoted comma); the
recovery code only ever tests messages for the substring
`Unterminated string`. -/
def parseRun : Nat → ParseTask → Except JsonError (Json × List Char × Nat)
  | 0, t =>
    .error ⟨"Expecting value",
      match t with
      | .value _ pos => pos
      | .objStart _ pos => pos
      | .members _ pos _ _ => pos
      | .arrStart _ pos => pos
      | .arrRest _ pos _ => pos⟩
  | fuel + 1, .value cs pos =>
    match cs with
    | [] => .error ⟨"Expecting value", pos⟩
    | c :: rest =>
      if c = qc then
        match scanString pos rest (pos + 1) [] with
        | .ok (s, r, p) => .ok (Json.str s, r, p)
        | .error e => .error e
      else if c = '{' then parseRun fuel (.objStart rest (pos + 1))
      else if c = '[' then parseRun fuel (.arrStart rest (pos + 1))
      else if "null".data.isPrefixOf cs then .ok (Json.null, cs.drop 4, pos + 4)
      else if "true".data.isPrefixOf cs then .ok (Json.bool true, cs.drop 4, pos + 4)
      else if "false".data.isPrefixOf cs then .ok (Json.bool false, cs.drop 5, pos + 5)
      else
        match parseNumber cs pos with
        | some r => .ok r
        | none =>
          if "NaN".data.isPrefixOf cs then .ok (Json.fnum "NaN", cs.drop 3, pos + 3)
          else if "Infinity".data.isPrefixOf cs then
            .ok (Json.fnum "Infinity", cs.drop 8, pos + 8)
          else if "-Infinity".data.isPrefixOf cs then
            .ok (Json.fnum "-Infinity", cs.drop 9, pos + 9)
          else .error ⟨"Expecting value", pos⟩
  | fuel + 1, .objStart cs pos =>
    let (cs1, pos1) := skipWs cs pos
    match cs1 with
    | [] => .error ⟨"Expecting property name enclosed in double quotes", pos1⟩
    | c :: r =>
      if c = '}' then .ok (Json.obj [], r, pos1 + 1)
      else if c = qc then parseRun fuel (.members r (pos1 + 1) pos1 [])
      else .error ⟨"Expecting property name enclosed in double quotes", pos1⟩
  | fuel + 1, .members cs pos keyStart acc =>
    match scanString keyStart cs pos [] with
    | .error e => .error e
    | .ok (key, cs2, pos2) =>
      let (cs3, pos3) := skipWs cs2 pos2
      match cs3 with
      | ':' :: r =>
        let (cs4, pos4) := skipWs r (pos3 + 1)
        match parseRun fuel (.value cs4 pos4) with
        | .error e => .error e
        | .ok (v, cs5, pos5) =>
          let acc2 := insertPair acc key v
          let (cs6, pos6) := skipWs cs5 pos5
          match cs6 with
          | '}' :: r2 => .ok (Json.obj acc2, r2, pos6 + 1)
          | ',' :: r2 =>
            let (cs7, pos7) := skipWs r2 (pos6 + 1)
            match cs7 with
            | c :: r3 =>
              if c = qc then parseRun fuel (.members r3 (pos7 + 1) pos7 acc2)
              else .error ⟨"Expecting property name enclosed in double quotes", pos7⟩
            | [] => .error ⟨"Expecting property name enclosed in double quotes", pos7⟩
          | _ => .error ⟨"Expecting comma delimiter", pos6⟩
      | _ => .error ⟨"Expecting colon delimiter", pos3⟩
  | fuel + 1, .arrStart cs pos =>
    let (cs1, pos1) := skipWs cs pos
    match cs1 with
    | ']' :: r => .ok (Json.arr [], r, pos1 + 1)
    | _ =>
      match parseRun fuel (.value cs1 pos1) with
      | .error e => .error e
      | .ok (v, cs2, pos2) => parseRun fuel (.arrRest cs2 pos2 [v])
  | fuel + 1, .arrRest cs pos acc =>
    let (cs1, pos1) := skipWs cs pos
    match cs1 with
    | ']' :: r => .ok (Json.arr acc.reverse, r, pos1 + 1)
    | ',' :: r =>
      let (cs2, pos2) := skipWs r (pos1 + 1)
      match parseRun fuel (.value cs2 pos2) with
      | .error e => .error e
      | .ok (v, cs3, pos3) => parseRun fuel (.arrRest cs3 pos3 (v :: acc))
    | _ => .error ⟨"Expecting comma delimiter", pos1⟩

/-- Parse one JSON value at the current position (CPython
`scan_once`). -/
def parseValue (fuel : Nat) (cs : List Char) (pos : Nat) :
    Except JsonError (Json × List Char × Nat) :=
  parseRun fuel (.value cs pos)

/-- The standard JSON decoder, modelling Python's `json.loads`
(CPython `JSONDecoder.decode`): skip leading whitespace, parse one
value, require only whitespace afterwards (`Extra data` otherwise). -/
def loads (s : String) : Except JsonError Json :=
  let cs := s.data
  let (cs1, pos1) := skipWs cs 0
  match parseValue (s.length * 4 + 16) cs1 pos1 with
  | .error e => .error e
  | .ok (v, cs2, pos2) =>
    let (cs3, pos3) := skipWs cs2 pos2
    match cs3 with
    | [] => .ok v
    | _ => .error ⟨"Extra data", pos3⟩

/-- Line and column of a character position in a document, as CPython's
`JSONDecodeError.__init__` computes them:
`lineno = doc.count chr(10) in [0,pos) + 1` and
`colno = pos - doc.rfind(chr(10), 0, pos)` (so `pos + 1` when no
newline precedes `pos`). -/
def lineColOf (doc : String) (pos : Nat) : Nat × Nat :=
  let before := doc.data.take pos
  let line := before.count '\n' + 1
  let col :=
    match rfindIn before '\n' with
    | some i => pos - i
    | none => pos + 1
  (line, col)

/-- The rendered `str(e)` of a `json.JSONDecodeError` raised while
decoding `doc`: CPython formats it as
`msg + ": line L column C (char P)"`. -/
def errStr (doc : String) (e : JsonError) : String :=
  let (l, c) := lineColOf doc e.pos
  e.msg ++ ": line " ++ toString l ++ " column " ++ toString c ++
    " (char " ++ toString e.pos ++ ")"

/-- Leftmost match of the regular expression used at line 173 of
`ai_services.py` (digits of a `line (d+) column (d+)` pattern in an
error message), returning the two captured numbers. -/
def searchLineCol (cs : List Char) : Option (Nat × Nat) :=
  match cs with
  | [] => none
  | _ :: t =>
    let attempt : Option (Nat × Nat) :=
      if "line ".data.isPrefixOf cs then
        let r := cs.drop 5
        let d1 := r.takeWhile Char.isDigit
        if d1.isEmpty then none
        else
          let r2 := r.drop d1.length
          if " column ".data.isPrefixOf r2 then
            let r3 := r2.drop 8
            let d2 := r3.takeWhile Char.isDigit
            if d2.isEmpty then none
            else some (natOfDigits d1, natOfDigits d2)
          else none
      else none
    match attempt with
    | some lc => some lc
    | none => searchLineCol t

/-- Fix 1a (line 150): `re.sub` of `'(\w+)':` with `"\1":`, scanning
left to right and resuming after each replacement, as `re.sub` does. -/
def subKeysAux : Nat → List Char → List Char
  | 0, l => l
  | _ + 1, [] => []
  | fuel + 1, c :: rest =>
    if c = sqc then
      let w := rest.takeWhile isWordChar
      if w.isEmpty then c :: subKeysAux fuel rest
      else
        match rest.drop w.length with
        | c2 :: ':' :: tail =>
          if c2 = sqc then qc :: (w ++ qc :: ':' :: subKeysAux fuel tail)
          else c :: subKeysAux fuel rest
        | _ => c :: subKeysAux fuel rest
    else c :: subKeysAux fuel rest

/-- Fix 1a entry point. -/
def subKeys (s : String) : String :=
  String.mk (subKeysAux s.data.length s.data)

/-- Fix 1b (line 151): `re.sub` of `:\s*'([^']*)'` with `: "\1"`. -/
def subValuesAux : Nat → List Char → List Char
  | 0, l => l
  | _ + 1, [] => []
  | fuel + 1, c :: rest =>
    if c = ':' then
      let ws := rest.takeWhile isPySpace
      match rest.drop ws.length with
      | c2 :: r2 =>
        if c2 = sqc then
          let content := r2.takeWhile (fun ch => ch ≠ sqc)
          match r2.drop content.length with
          | _ :: tail => ':' :: ' ' :: qc :: (content ++ qc :: subValuesAux fuel tail)
          | [] => c :: subValuesAux fuel rest
        else c :: subValuesAux fuel rest
      | [] => c :: subValuesAux fuel rest
    else c :: subValuesAux fuel rest

/-- Fix 1b entry point. -/
def subValues (s : String) : String :=
  String.mk (subValuesAux s.data.length s.data)

/-- Fix 2 (line 154): `re.sub` of `,(\s*[}\]])` with `\1`. -/
def subCommasAux : Nat → List Char → List Char
  | 0, l => l
  | _ + 1, [] => []
  | fuel + 1, c :: rest =>
    if c = ',' then
      let ws := rest.takeWhile isPySpace
      match rest.drop ws.length with
      | c2 :: tail =>
        if c2 = '}' || c2 = ']' then ws ++ c2 :: subCommasAux fuel tail
        else c :: subCommasAux fuel rest
      | [] => c :: subCommasAux fuel rest
    else c :: subCommasAux fuel rest

/-- Fix 2 entry point. -/
def subCommas (s : String) : String :=
  String.mk (subCommasAux s.data.length s.data)

/-- Fix 3 (lines 157-161): `re.search` of the non-greedy, DOTALL
pattern (three backticks, an optional `json` label, lazily matched
content, three backticks), returning `group(1).strip()`.  The lazy
content group makes the closing fence the nearest occurrence of three
backticks after the opening fence; the surrounding `\s*` pair and the
final `.strip()` together strip the captured content.  `fenceRest` is
the text after the opening fence at index `i` with an optional `json`
label consumed. -/
def fenceRest (u : String) (i : Nat) : List Char :=
  if "json".data.isPrefixOf (u.data.drop (i + 3)) then (u.data.drop (i + 3)).drop 4
  else u.data.drop (i + 3)

/-- Fence extraction proper: the first fence opens at `i`; the content
runs from after the optional `json` label to the nearest following
fence. -/
def fenceExtract (u : String) : Option String :=
  match listFindSub fenceMarker u.data with
  | none => none
  | some i =>
    match listFindSub fenceMarker (fenceRest u i) with
    | none => none
    | some k => some (String.mk (pyStripList ((fenceRest u i).take k)))

/-- Stage 2 normalization (lines 146-161): fixes 1a, 1b, 2 in order,
then code-fence extraction when the text contains a fence marker. -/
def stage2Normalize (t : String) : String :=
  let f1 := subKeys t
  let f2 := subValues f1
  let f3 := subCommas f2
  if listHasSub fenceMarker f3.data then
    match fenceExtract f3 with
    | some inner => inner
    | none => f3
  else f3

/-- Stage 3a candidate (lines 172-189): when the rendered decode error
carries a line and column, the reported line exists, that line does not
already end (right-stripped) in a double or single quote, and the line
has a double quote before the reported column, produce the whole text
with a double quote inserted at the reported column of that line.  The
`pyIdx`/`pySet` `none`/out-of-range cases model Python's negative-index
wraparound faithfully; an actual `IndexError` is impossible because
`split` never returns an empty list. -/
def stage3aCandidate (t : String) (errS : String) : Option String :=
  match searchLineCol errS.data with
  | none => none
  | some (lineNum, colNum) =>
    if lineNum ≤ (pySplitLines t).length then
      match pyIdx (pySplitLines t) ((lineNum : Int) - 1) with
      | none => none
      | some problemLine =>
        if (pyRstripList problemLine.data).getLast? = some qc ∨
            (pyRstripList problemLine.data).getLast? = some sqc then none
        else
          match rfindIn (problemLine.data.take colNum) qc with
          | none => none
          | some _ =>
            some (joinNl (pySet (pySplitLines t) ((lineNum : Int) - 1)
              (String.mk (problemLine.data.take colNum ++
                qc :: problemLine.data.drop colNum))))
    else none

/-- Stage 3b candidate (lines 196-209): `safe_end` is the last double
quote; `remaining = text[safe_end:]`; the nearest closing brace or
bracket in `remaining` ends the slice; the candidate is
`text[:safe_end+1] + remaining[:end_pos+1]` followed by one closing
brace per unmatched opening brace and one closing bracket per
unmatched opening bracket of that concatenation (Python's `'}' * n`
yields the empty string for negative `n`, matching truncated `Nat`
subtraction). -/
def truncationCandidate (t : String) : Option String :=
  let cs := t.data
  match rfindIn cs qc with
  | none => none
  | some safeEnd =>
    let remaining := cs.drop safeEnd
    match minOpt (remaining.findIdx? (fun c => c = '}'))
        (remaining.findIdx? (fun c => c = ']')) with
    | none => none
    | some e =>
      let truncated := cs.take (safeEnd + 1) ++ remaining.take (e + 1)
      let openBraces := truncated.count '{' - truncated.count '}'
      let openBrackets := truncated.count '[' - truncated.count ']'
      some (String.mk (truncated ++ List.replicate openBraces '}' ++
        List.replicate openBrackets ']'))

/-- Stage 4 candidate (lines 220-230): slice from the first opening
brace or bracket (whichever comes first) to the last closing brace or
bracket (whichever comes last), requiring the end to lie strictly
after the start. -/
def stage4Extract (t : String) : Option String :=
  let cs := t.data
  match minOpt (cs.findIdx? (fun c => c = '{')) (cs.findIdx? (fun c => c = '[')) with
  | none => none
  | some s =>
    match maxOpt (rfindIn cs '}') (rfindIn cs ']') with
    | none => none
    | some e => if s < e then some (String.mk ((cs.take (e + 1)).drop s)) else none

/-- Stage 5 fallback (lines 238-241): context-specific empty
structure. -/
def emptyFallback (context : String) : Json :=
  if context = "syllabus" then
    Json.obj [("title", Json.str (context ++ " Syllabus (Parse Error)")),
              ("overview", Json.str "JSON parsing failed"),
              ("modules", Json.arr [])]
  else
    Json.obj [("week_plan", Json.obj []), ("daily_tasks", Json.obj [])]

/-- Outcome of the pipeline together with bookkeeping that is implicit
in the Python control flow: how many `json.loads` calls were made and
whether the fallback branch was taken. -/
structure RecOutcome where
  value : Json
  attempts : Nat
  fellBack : Bool
deriving Repr, DecidableEq

/-- Stage 4 then stage 5 (lines 218-241), on the current working
text. -/
def stage4AndFallback (fixedText context : String) : RecOutcome :=
  match stage4Extract fixedText with
  | some extracted =>
    match loads extracted with
    | .ok v => ⟨v, 1, false⟩
    | .error _ => ⟨emptyFallback context, 1, true⟩
  | none => ⟨emptyFallback context, 0, true⟩

/-- Stage 3b then the rest (lines 195-241), on the current working
text.  A failed truncation decode does not change the working text. -/
def stage3Trunc (fixedText context : String) : RecOutcome :=
  match truncationCandidate fixedText with
  | some truncated =>
    match loads truncated with
    | .ok v => ⟨v, 1, false⟩
    | .error _ =>
      let r := stage4AndFallback fixedText context
      ⟨r.value, r.attempts + 1, r.fellBack⟩
  | none => stage4AndFallback fixedText context

/-- Stage 3 for an unterminated-string error (lines 169-213) then the
rest.  When the quote insertion of stage 3a is performed, the Python
code assigns the mutated text to `fixed_text` (line 189) before the
decode attempt, so a failed attempt leaves the mutation in place for
stage 3b and stage 4. -/
def stage3Untermin (fixedText : String) (errS : String) (context : String) : RecOutcome :=
  match stage3aCandidate fixedText errS with
  | some mutated =>
    match loads mutated with
    | .ok v => ⟨v, 1, false⟩
    | .error _ =>
      let r := stage3Trunc mutated context
      ⟨r.value, r.attempts + 1, r.fellBack⟩
  | none => stage3Trunc fixedText context

/-- Dispatch after the stage 2 retry failed (line 169): stage 3 when
the rendered error reports an unterminated string, stage 4 directly
otherwise. -/
def recoveryTail (fixedText errS context : String) : RecOutcome :=
  if listHasSub "Unterminated string".data errS.data then
    stage3Untermin fixedText errS context
  else stage4AndFallback fixedText context

/-- Stage 2 decode retry and everything after it (lines 163-241), on
the stage-2-normalized text. -/
def stage2AndOn (fixedText context : String) : RecOutcome :=
  match loads fixedText with
  | .ok v => ⟨v, 2, false⟩
  | .error e2 =>
    ⟨(recoveryTail fixedText (errStr fixedText e2) context).value,
     (recoveryTail fixedText (errStr fixedText e2) context).attempts + 2,
     (recoveryTail fixedText (errStr fixedText e2) context).fellBack⟩

/-- The full `_parse_json_with_recovery` pipeline (lines 133-241),
with attempt counting and a fallback indicator. -/
def parseJsonWithRecoveryT (jsonText context : String) : RecOutcome :=
  match loads jsonText with
  | .ok v => ⟨v, 1, false⟩
  | .error _ => stage2AndOn (stage2Normalize jsonText) context

/-- `_parse_json_with_recovery` itself: the returned structure. -/
def parseJsonWithRecovery (jsonText context : String) : Json :=
  (parseJsonWithRecoveryT jsonText context).value

/-- The stage 2 text before the fence step: fixes 1a, 1b and 2
composed in order. -/
def preNorm (t : String) : String :=
  subCommas (subValues (subKeys t))

/-- Modelled from the spec: stage 3 as claim C6 reads it, where a
failed quote-insertion attempt leaves the working text unchanged, so
truncation repair and embedded-object extraction run on the
stage-2-normalized text. -/
def stage3UnterminIndep (fixedText : String) (errS : String) (context : String) :
    RecOutcome :=
  match stage3aCandidate fixedText errS with
  | some mutated =>
    match loads mutated with
    | .ok v => ⟨v, 1, false⟩
    | .error _ =>
      let r := stage3Trunc fixedText context
      ⟨r.value, r.attempts + 1, r.fellBack⟩
  | none => stage3Trunc fixedText context

/-- Modelled from the spec: the pipeline as claim C6 reads it, with
stages after a failed stage 3a insertion running on the
stage-2-normalized text. -/
def parseJsonWithRecoveryIndep (jsonText context : String) : Json :=
  (match loads jsonText with
  | .ok v => (⟨v, 1, false⟩ : RecOutcome)
  | .error _ =>
    let fixedText := stage2Normalize jsonText
    match loads fixedText with
    | .ok v => ⟨v, 2, false⟩
    | .error e2 =>
      let r :=
        if listHasSub "Unterminated string".data (errStr fixedText e2).data then
          stage3UnterminIndep fixedText (errStr fixedText e2) context
        else
          stage4AndFallback fixedText context
      ⟨r.value, r.attempts + 2, r.fellBack⟩).value

/-- Modelled from the spec: fence extraction as claim C7 reads it,
taking the content between the first fence (optionally labeled `json`)
and the LAST fence in the text. -/
def fenceExtractLastSpec (u : String) : Option String :=
  let cs := u.data
  match listFindSub fenceMarker cs with
  | none => none
  | some i =>
    let afterOpen := cs.drop (i + 3)
    let rest2 := if "json".data.isPrefixOf afterOpen then afterOpen.drop 4 else afterOpen
    match rlistFindSub fenceMarker rest2 with
    | none => none
    | some k => some (String.mk (pyStripList (rest2.take k)))

/-- Modelled from the spec: the stage 3b candidate as claim C8 reads
it, concatenating everything up to and including the closing bracket
with each character of the original text appearing once, then
balancing. -/
def truncationCandidateSpec (t : String) : Option String :=
  let cs := t.data
  match rfindIn cs qc with
  | none => none
  | some safeEnd =>
    let remaining := cs.drop safeEnd
    match minOpt (remaining.findIdx? (fun c => c = '}'))
        (remaining.findIdx? (fun c => c = ']')) with
    | none => none
    | some e =>
      let truncated := cs.take (safeEnd + e + 1)
      let openBraces := truncated.count '{' - truncated.count '}'
      let openBrackets := truncated.count '[' - truncated.count ']'
      some (String.mk (truncated ++ List.replicate openBraces '}' ++
        List.replicate openBrackets ']'))

/-- A Python exception arising from a `json.loads` call: either a
`json.JSONDecodeError` (caught by the `except json.JSONDecodeError`
clauses at lines 141 and 165 and by the bare `except` clauses at lines
192, 212 and 233), or a `RecursionError` (caught ONLY by the bare
`except` clauses: it is not a `json.JSONDecodeError`, so the handlers
at lines 141 and 165 let it propagate to the caller). -/
inductive PyExc where
  | decodeError (e : JsonError) : PyExc
  | recursionError : PyExc
deriving Repr, DecidableEq

instance : DecidableEq (Except PyExc Json) := fun a b =>
  match a, b with
  | .ok x, .ok y =>
    if h : x = y then isTrue (by rw [h])
    else isFalse (fun hh => h (by injection hh))
  | .error x, .error y =>
    if h : x = y then isTrue (by rw [h])
    else isFalse (fun hh => h (by injection hh))
  | .ok _, .error _ => isFalse (fun hh => Except.noConfusion hh)
  | .error _, .ok _ => isFalse (fun hh => Except.noConfusion hh)

/-- CPython's default `sys.getrecursionlimit()`.  The C scanner behind
`json.loads` calls `Py_EnterRecursiveCall` for every nested container,
raising `RecursionError` once the interpreter's recursion budget is
exhausted; with the default limit that happens at a container nesting
depth of at most 1000 (the exact trigger point is lowered by whatever
interpreter frames are already on the stack). -/
def pyRecursionLimit : Nat := 1000

/-- Depth-aware variant of `parseRun`, modelling CPython's recursion
check: entering a container at nesting depth `pyRecursionLimit` raises
`RecursionError` instead of descending.  All syntax errors are the
same `JsonError` values as in `parseRun`, wrapped as `decodeError`. -/
def parseRunD : Nat → Nat → ParseTask → Except PyExc (Json × List Char × Nat)
  | 0, _, t =>
    .error (.decodeError ⟨"Expecting value",
      match t with
      | .value _ pos => pos
      | .objStart _ pos => pos
      | .members _ pos _ _ => pos
      | .arrStart _ pos => pos
      | .arrRest _ pos _ => pos⟩)
  | fuel + 1, depth, .value cs pos =>
    match cs with
    | [] => .error (.decodeError ⟨"Expecting value", pos⟩)
    | c :: rest =>
      if c = qc then
        match scanString pos rest (pos + 1) [] with
        | .ok (s, r, p) => .ok (Json.str s, r, p)
        | .error e => .error (.decodeError e)
      else if c = '{' then
        if pyRecursionLimit ≤ depth then .error .recursionError
        else parseRunD fuel (depth + 1) (.objStart rest (pos + 1))
      else if c = '[' then
        if pyRecursionLimit ≤ depth then .error .recursionError
        else parseRunD fuel (depth + 1) (.arrStart rest (pos + 1))
      else if "null".data.isPrefixOf cs then .ok (Json.null, cs.drop 4, pos + 4)
      else if "true".data.isPrefixOf cs then .ok (Json.bool true, cs.drop 4, pos + 4)
      else if "false".data.isPrefixOf cs then .ok (Json.bool false, cs.drop 5, pos + 5)
      else
        match parseNumber cs pos with
        | some r => .ok r
        | none =>
          if "NaN".data.isPrefixOf cs then .ok (Json.fnum "NaN", cs.drop 3, pos + 3)
          else if "Infinity".data.isPrefixOf cs then
            .ok (Json.fnum "Infinity", cs.drop 8, pos + 8)
          else if "-Infinity".data.isPrefixOf cs then
            .ok (Json.fnum "-Infinity", cs.drop 9, pos + 9)
          else .error (.decodeError ⟨"Expecting value", pos⟩)
  | fuel + 1, depth, .objStart cs pos =>
    let (cs1, pos1) := skipWs cs pos
    match cs1 with
    | [] => .error (.decodeError ⟨"Expecting property name enclosed in double quotes", pos1⟩)
    | c :: r =>
      if c = '}' then .ok (Json.obj [], r, pos1 + 1)
      else if c = qc then parseRunD fuel depth (.members r (pos1 + 1) pos1 [])
      else .error (.decodeError ⟨"Expecting property name enclosed in double quotes", pos1⟩)
  | fuel + 1, depth, .members cs pos keyStart acc =>
    match scanString keyStart cs pos [] with
    | .error e => .error (.decodeError e)
    | .ok (key, cs2, pos2) =>
      let (cs3, pos3) := skipWs cs2 pos2
      match cs3 with
      | ':' :: r =>
        let (cs4, pos4) := skipWs r (pos3 + 1)
        match parseRunD fuel depth (.value cs4 pos4) with
        | .error e => .error e
        | .ok (v, cs5, pos5) =>
          let acc2 := insertPair acc key v
          let (cs6, pos6) := skipWs cs5 pos5
          match cs6 with
          | '}' :: r2 => .ok (Json.obj acc2, r2, pos6 + 1)
          | ',' :: r2 =>
            let (cs7, pos7) := skipWs r2 (pos6 + 1)
            match cs7 with
            | c :: r3 =>
              if c = qc then parseRunD fuel depth (.members r3 (pos7 + 1) pos7 acc2)
              else .error (.decodeError
                ⟨"Expecting property name enclosed in double quotes", pos7⟩)
            | [] => .error (.decodeError
                ⟨"Expecting property name enclosed in double quotes", pos7⟩)
          | _ => .error (.decodeError ⟨"Expecting comma delimiter", pos6⟩)
      | _ => .error (.decodeError ⟨"Expecting colon delimiter", pos3⟩)
  | fuel + 1, depth, .arrStart cs pos =>
    let (cs1, pos1) := skipWs cs pos
    match cs1 with
    | ']' :: r => .ok (Json.arr [], r, pos1 + 1)
    | _ =>
      match parseRunD fuel depth (.value cs1 pos1) with
      | .error e => .error e
      | .ok (v, cs2, pos2) => parseRunD fuel depth (.arrRest cs2 pos2 [v])
  | fuel + 1, depth, .arrRest cs pos acc =>
    let (cs1, pos1) := skipWs cs pos
    match cs1 with
    | ']' :: r => .ok (Json.arr acc.reverse, r, pos1 + 1)
    | ',' :: r =>
      let (cs2, pos2) := skipWs r (pos1 + 1)
      match parseRunD fuel depth (.value cs2 pos2) with
      | .error e => .error e
      | .ok (v, cs3, pos3) => parseRunD fuel depth (.arrRest cs3 pos3 (v :: acc))
    | _ => .error (.decodeError ⟨"Expecting comma delimiter", pos1⟩)

/-- Depth-aware model of `json.loads`: like `loads`, but container
nesting beyond `pyRecursionLimit` raises `RecursionError`, which is
not a `json.JSONDecodeError`. -/
def loadsD (s : String) : Except PyExc Json :=
  match skipWs s.data 0 with
  | (cs1, pos1) =>
    match parseRunD (s.length * 4 + 16) 0 (.value cs1 pos1) with
    | .error e => .error e
    | .ok (v, cs2, pos2) =>
      match skipWs cs2 pos2 with
      | ([], _) => .ok v
      | (_, pos3) => .error (.decodeError ⟨"Extra data", pos3⟩)

/-- Stage 4 then stage 5 in the exception-aware model: the bare
`except` at line 233 absorbs ANY exception from the decode attempt,
`RecursionError` included. -/
def stage4AndFallbackD (fixedText context : String) : Json :=
  match stage4Extract fixedText with
  | some extracted =>
    match loadsD extracted with
    | .ok v => v
    | .error _ => emptyFallback context
  | none => emptyFallback context

/-- Stage 3b then the rest in the exception-aware model: the bare
`except` at line 212 absorbs any exception. -/
def stage3TruncD (fixedText context : String) : Json :=
  match truncationCandidate fixedText with
  | some truncated =>
    match loadsD truncated with
    | .ok v => v
    | .error _ => stage4AndFallbackD fixedText context
  | none => stage4AndFallbackD fixedText context

/-- Stage 3 then the rest in the exception-aware model: the bare
`except` at line 192 absorbs any exception from the insertion retry. -/
def stage3UnterminD (fixedText errS context : String) : Json :=
  match stage3aCandidate fixedText errS with
  | some mutated =>
    match loadsD mutated with
    | .ok v => v
    | .error _ => stage3TruncD mutated context
  | none => stage3TruncD fixedText context

/-- Dispatch after a failed stage 2 retry in the exception-aware
model. -/
def recoveryTailD (fixedText errS context : String) : Json :=
  if listHasSub "Unterminated string".data errS.data then
    stage3UnterminD fixedText errS context
  else stage4AndFallbackD fixedText context

/-- The `_parse_json_with_recovery` pipeline in the exception-aware
model.  The decode calls at lines 140 and 164 sit under
`except json.JSONDecodeError` only (lines 141 and 165), so a
`RecursionError` raised there propagates to the caller (`Except.error`
here); all later decode attempts sit under bare `except` clauses and
absorb every exception. -/
def parseJsonWithRecoveryD (jsonText context : String) : Except PyExc Json :=
  match loadsD jsonText with
  | .ok v => .ok v
  | .error .recursionError => .error .recursionError
  | .error (.decodeError _) =>
    match loadsD (stage2Normalize jsonText) with
    | .ok v => .ok v
    | .error .recursionError => .error .recursionError
    | .error (.decodeError e2) =>
      .ok (recoveryTailD (stage2Normalize jsonText)
        (errStr (stage2Normalize jsonText) e2) context)

/-- A deeply nested unbalanced input: 2000 opening brackets, beyond
any configuration of CPython's recursion limit of 1000. -/
def deepInput : String := String.mk (List.replicate 2000 '[')

/-- A one-character string holding a single quote. -/
def sglq : String := String.mk [sqc]

/-- The quote-normalization test input of spec section 8, single-quoted
keys and string value: `{'a': 'b', 'c': 1}`. -/
def c9Input : String :=
  "\x7b" ++ sglq ++ "a" ++ sglq ++ ": " ++ sglq ++ "b" ++ sglq ++ ", " ++
    sglq ++ "c" ++ sglq ++ ": 1\x7d"

/-- An input whose stage 3a insertion fires and fails, after which the
mutated text changes the outcome: `[{"a": "}]g]`. -/
def c6Input : String := "[\x7b\"a\": \"\x7d]g]"

/-- The rendered decode error that stage 2 produces on `c6Input`. -/
def c6ErrS : String := errStr c6Input ⟨"Unterminated string starting at", 7⟩

/-- The stage 3a mutation of `c6Input`: `[{"a": ""}]g]`. -/
def c6Mutated : String := "[\x7b\"a\": \"\"\x7d]g]"

/-- A three-fence input separating nearest-fence from last-fence
extraction. -/
def c7Input : String := "```json 1 ``` 2 ```"

/-- A minimal input on which the stage 3b candidate duplicates the last
double quote: `"]`. -/
def c8Input : String := "\"]"

/-- An unterminated-string input for exercising the stage 3a guards:
`{"a": "b`. -/
def c10Input : String := "\x7b\"a\": \"b"

/-- The rendered decode error that `loads` produces on `c10Input`. -/
def c10ErrS : String := errStr c10Input ⟨"Unterminated string starting at", 6⟩

/-- The stage 3a mutation of `c10Input`: `{"a": ""b`. -/
def c10Mutated : String := "\x7b\"a\": \"\"b"

/-- The concatenation the stage 3b candidate is built from, written
with the duplicated quote explicit: the text up to and including its
last double quote, then a second copy of that quote, then the
characters strictly between the quote and the nearest following closer
(inclusive of the closer). -/
def truncCore (t : String) (q e : Nat) : List Char :=
  t.data.take (q + 1) ++ qc :: ((t.data.drop (q + 1)).take e)

/-- The closers appended by stage 3b to balance a candidate. -/
def balanceClosers (core : List Char) : List Char :=
  List.replicate (core.count '{' - core.count '}') '}' ++
    List.replicate (core.count '[' - core.count ']') ']'

/-! ### Helper lemmas about the pipeline -/

theorem stage4AndFallback_attempts_le (ft c : String) :
    (stage4AndFallback ft c).attempts ≤ 1 := by
  unfold stage4AndFallback
  split
  · split <;> simp
  · simp

theorem stage3Trunc_attempts_le (ft c : String) :
    (stage3Trunc ft c).attempts ≤ 2 := by
  unfold stage3Trunc
  split
  · split
    · simp
    · simpa using Nat.add_le_add_right (stage4AndFallback_attempts_le ft c) 1
  · exact le_trans (stage4AndFallback_attempts_le ft c) (by norm_num)

theorem stage3Untermin_attempts_le (ft e c : String) :
    (stage3Untermin ft e c).attempts ≤ 3 := by
  unfold stage3Untermin
  split
  next mutated _ =>
    split
    · simp
    · simpa using Nat.add_le_add_right (stage3Trunc_attempts_le mutated c) 1
  · exact le_trans (stage3Trunc_attempts_le ft c) (by norm_num)

theorem stage4AndFallback_inv (ft c : String) :
    ((stage4AndFallback ft c).fellBack = true →
      (stage4AndFallback ft c).value = emptyFallback c) ∧
    ((stage4AndFallback ft c).fellBack = false →
      ∃ u, loads u = Except.ok ((stage4AndFallback ft c).value)) := by
  unfold stage4AndFallback
  split
  next ex _ =>
    split
    next v hv => exact ⟨fun h => by simp at h, fun _ => ⟨ex, by simpa using hv⟩⟩
    next e he => exact ⟨fun _ => rfl, fun h => by simp at h⟩
  · exact ⟨fun _ => rfl, fun h => by simp at h⟩

theorem stage3Trunc_inv (ft c : String) :
    ((stage3Trunc ft c).fellBack = true →
      (stage3Trunc ft c).value = emptyFallback c) ∧
    ((stage3Trunc ft c).fellBack = false →
      ∃ u, loads u = Except.ok ((stage3Trunc ft c).value)) := by
  unfold stage3Trunc
  split
  next tr _ =>
    split
    next v hv => exact ⟨fun h => by simp at h, fun _ => ⟨tr, by simpa using hv⟩⟩
    next e he =>
      exact ⟨fun _ => (stage4AndFallback_inv ft c).1 (by assumption),
             fun h => (stage4AndFallback_inv ft c).2 (by assumption)⟩
  · exact stage4AndFallback_inv ft c

theorem stage3Untermin_inv (ft e c : String) :
    ((stage3Untermin ft e c).fellBack = true →
      (stage3Untermin ft e c).value = emptyFallback c) ∧
    ((stage3Untermin ft e c).fellBack = false →
      ∃ u, loads u = Except.ok ((stage3Untermin ft e c).value)) := by
  unfold stage3Untermin
  split
  next mutated _ =>
    split
    next v hv => exact ⟨fun h => by simp at h, fun _ => ⟨mutated, by simpa using hv⟩⟩
    next er he =>
      exact ⟨fun _ => (stage3Trunc_inv mutated c).1 (by assumption),
             fun h => (stage3Trunc_inv mutated c).2 (by assumption)⟩
  · exact stage3Trunc_inv ft c

theorem recoveryTail_inv (ft e c : String) :
    ((recoveryTail ft e c).fellBack = true →
      (recoveryTail ft e c).value = emptyFallback c) ∧
    ((recoveryTail ft e c).fellBack = false →
      ∃ u, loads u = Except.ok ((recoveryTail ft e c).value)) := by
  unfold recoveryTail
  split
  · exact stage3Untermin_inv ft e c
  · exact stage4AndFallback_inv ft c

theorem stage2AndOn_inv (ft c : String) :
    ((stage2AndOn ft c).fellBack = true →
      (stage2AndOn ft c).value = emptyFallback c) ∧
    ((stage2AndOn ft c).fellBack = false →
      ∃ u, loads u = Except.ok ((stage2AndOn ft c).value)) := by
  unfold stage2AndOn
  split
  next v hv => exact ⟨fun h => by simp at h, fun _ => ⟨ft, by simpa using hv⟩⟩
  next e2 he2 =>
    exact ⟨fun h => (recoveryTail_inv ft (errStr ft e2) c).1 (by simpa using h),
           fun h => (recoveryTail_inv ft (errStr ft e2) c).2 (by simpa using h)⟩

theorem parseJsonWithRecoveryT_inv (s c : String) :
    ((parseJsonWithRecoveryT s c).fellBack = true →
      (parseJsonWithRecoveryT s c).value = emptyFallback c) ∧
    ((parseJsonWithRecoveryT s c).fellBack = false →
      ∃ u, loads u = Except.ok ((parseJsonWithRecoveryT s c).value)) := by
  unfold parseJsonWithRecoveryT
  split
  next v hv => exact ⟨fun h => by simp at h, fun _ => ⟨s, by simpa using hv⟩⟩
  next e he => exact stage2AndOn_inv (stage2Normalize s) c

theorem recoveryTail_attempts_le (ft e c : String) :
    (recoveryTail ft e c).attempts ≤ 3 := by
  unfold recoveryTail
  split
  · exact stage3Untermin_attempts_le ft e c
  · exact le_trans (stage4AndFallback_attempts_le ft c) (by norm_num)

theorem stage2AndOn_attempts_le (ft c : String) :
    (stage2AndOn ft c).attempts ≤ 5 := by
  unfold stage2AndOn
  split
  · simp
  next e2 he2 =>
    simpa using Nat.add_le_add_right (recoveryTail_attempts_le ft (errStr ft e2) c) 2

/-! ### The claims -/

theorem parseRunD_value_step (f depth pos : Nat) (L : List Char) :
    parseRunD (f + 1) depth (ParseTask.value ('[' :: L) pos) =
      (if pyRecursionLimit ≤ depth then Except.error PyExc.recursionError
       else parseRunD f (depth + 1) (ParseTask.arrStart L (pos + 1))) := by
  simp only [parseRunD]; rfl

theorem parseRunD_arrStart_step (f depth pos : Nat) (L : List Char) :
    parseRunD (f + 1) depth (ParseTask.arrStart ('[' :: L) pos) =
      (match parseRunD f depth (ParseTask.value ('[' :: L) pos) with
       | .error e => .error e
       | .ok (v, cs2, pos2) => parseRunD f depth (.arrRest cs2 pos2 [v])) := by
  simp only [parseRunD]; rfl

theorem deep_brackets_value : ∀ (n fuel depth pos : Nat),
    pyRecursionLimit ≤ depth + n →
    2 * n + 1 ≤ fuel →
    parseRunD fuel depth (ParseTask.value (List.replicate (n + 1) '[') pos)
      = Except.error PyExc.recursionError := by
  intro n
  induction n with
  | zero =>
    intro fuel depth pos hd hf
    match fuel, hf with
    | f + 1, _ =>
      rw [List.replicate_succ, List.replicate_zero, parseRunD_value_step]
      rw [if_pos (by omega)]
  | succ n ih =>
    intro fuel depth pos hd hf
    match fuel, hf with
    | f + 1, hf =>
      rw [List.replicate_succ, parseRunD_value_step]
      by_cases hdep : pyRecursionLimit ≤ depth
      · rw [if_pos hdep]
      · rw [if_neg hdep]
        match f, hf with
        | f' + 1, hf =>
          rw [show List.replicate (n + 1) '[' = '[' :: List.replicate n '[' from
            List.replicate_succ .., parseRunD_arrStart_step,
            show ('[' : Char) :: List.replicate n '[' = List.replicate (n + 1) '[' from
            (List.replicate_succ ..).symm]
          rw [ih f' (depth + 1) (pos + 1) (by omega) (by omega)]

theorem loadsD_deepInput : loadsD deepInput = Except.error PyExc.recursionError := by
  have hlen : deepInput.length = 2000 := by
    rw [show deepInput = String.mk (List.replicate 2000 '[') from rfl,
      String.length_mk, List.length_replicate]
  have hrun : parseRunD (deepInput.length * 4 + 16) 0 (ParseTask.value deepInput.data 0)
      = Except.error PyExc.recursionError := by
    rw [show deepInput.data = List.replicate (1999 + 1) '[' from rfl]
    exact deep_brackets_value 1999 _ 0 0 (by norm_num [pyRecursionLimit])
      (by rw [hlen]; omega)
  have hskip : skipWs deepInput.data 0 = (deepInput.data, 0) := by
    rw [show deepInput.data = '[' :: List.replicate 1999 '[' from rfl]
    rfl
  unfold loadsD
  rw [hskip]
  simp only [hrun]

/-- Claim C1 is refuted by the code (code bug): on the deeply nested
unbalanced input of 2000 opening brackets, `json.loads` raises
`RecursionError` (CPython's recursion limit, not a
`json.JSONDecodeError`), which the `except json.JSONDecodeError`
handler at line 141 does not catch; the exception propagates to the
caller for every context label, contradicting the claim and the spec's
stated intent that every failure path terminates in a returned value. -/
theorem claim1_recursion_escape (ctx : String) :
    parseJsonWithRecoveryD deepInput ctx = Except.error PyExc.recursionError := by
  unfold parseJsonWithRecoveryD
  rw [loadsD_deepInput]

/-- Claim C2: when every recovery stage fails (the pipeline reaches
its fallback branch), the result is the context-selected fallback: for
context `syllabus` a structure with an error-marker title, an overview
and an empty module list, and for every other context label the default
structure with an empty week-plan container and an empty daily-task
container. -/
theorem claim2_fallback_shapes (s ctx : String)
    (h : (parseJsonWithRecoveryT s ctx).fellBack = true) :
    parseJsonWithRecovery s ctx =
      (if ctx = "syllabus" then
        Json.obj [("title", Json.str (ctx ++ " Syllabus (Parse Error)")),
                  ("overview", Json.str "JSON parsing failed"),
                  ("modules", Json.arr [])]
      else Json.obj [("week_plan", Json.obj []), ("daily_tasks", Json.obj [])]) := by
  have hv := (parseJsonWithRecoveryT_inv s ctx).1 h
  unfold parseJsonWithRecovery
  rw [hv]
  rfl

/-- Witness for claim C2 at the unrecoverable input `hello` with
context `syllabus`. -/
theorem claim2_fallback_shapes_witness :
    (parseJsonWithRecoveryT "hello" "syllabus").fellBack = true ∧
    parseJsonWithRecovery "hello" "syllabus" =
      (if ("syllabus" : String) = "syllabus" then
        Json.obj [("title", Json.str ("syllabus" ++ " Syllabus (Parse Error)")),
                  ("overview", Json.str "JSON parsing failed"),
                  ("modules", Json.arr [])]
      else Json.obj [("week_plan", Json.obj []), ("daily_tasks", Json.obj [])]) :=
  ⟨by decide, claim2_fallback_shapes "hello" "syllabus" (by decide)⟩

/-- Claim C3: an input that is already valid JSON is returned exactly
as the standard decoder parses it, for every context label. -/
theorem claim3_direct_success (s ctx : String) (v : Json)
    (h : loads s = Except.ok v) : parseJsonWithRecovery s ctx = v := by
  unfold parseJsonWithRecovery parseJsonWithRecoveryT
  rw [h]

/-- Witness for claim C3 at the valid input `[1, 2]`. -/
theorem claim3_direct_success_witness :
    loads "[1, 2]" = Except.ok (Json.arr [Json.num 1, Json.num 2]) ∧
    parseJsonWithRecovery "[1, 2]" "json" = Json.arr [Json.num 1, Json.num 2] :=
  ⟨by decide,
   claim3_direct_success "[1, 2]" "json" (Json.arr [Json.num 1, Json.num 2]) (by decide)⟩

/-- Claim C4: the recovery is deterministic: two calls with identical
raw text and identical context label produce structurally equal
outputs (the embedded pipeline is a pure function of its two
arguments). -/
theorem claim4_deterministic (s1 s2 c1 c2 : String) (hs : s1 = s2) (hc : c1 = c2) :
    parseJsonWithRecovery s1 c1 = parseJsonWithRecovery s2 c2 := by
  rw [hs, hc]

/-- Witness for claim C4 at a concrete repeated call. -/
theorem claim4_deterministic_witness :
    ("x" : String) = "x" ∧ ("json" : String) = "json" ∧
    parseJsonWithRecovery "x" "json" = parseJsonWithRecovery "x" "json" :=
  ⟨rfl, rfl, claim4_deterministic "x" "x" "json" "json" rfl rfl⟩

/-- Claim C5: the pipeline always terminates with at most five JSON
decode attempts in total: one in stage 1, one in stage 2, at most two
in stage 3, at most one in stage 4, and none in stage 5. -/
theorem claim5_attempt_bound (s ctx : String) :
    (parseJsonWithRecoveryT s ctx).attempts ≤ 5 := by
  unfold parseJsonWithRecoveryT
  split
  · simp
  · exact stage2AndOn_attempts_le (stage2Normalize s) ctx

/-- Claim C9: the single-quoted input `{'a': 'b', 'c': 1}` is repaired
by stage 2 quote normalization into the structure mapping `a` to the
string `b` and `c` to the number `1`. -/
theorem claim9_quote_normalization :
    parseJsonWithRecovery c9Input "json" =
      Json.obj [("a", Json.str "b"), ("c", Json.num 1)] := by
  decide

/-! ### Claims C6, C8, C10 -/

theorem rfindIn_get {cs : List Char} {c : Char} {i : Nat}
    (h : rfindIn cs c = some i) : cs.get? i = some c := by
  induction cs generalizing i with
  | nil => simp [rfindIn] at h
  | cons a t ih =>
    unfold rfindIn at h
    cases hj : rfindIn t c with
    | some j =>
      rw [hj] at h
      injection h with h
      subst h
      simpa using ih hj
    | none =>
      rw [hj] at h
      by_cases hac : a = c
      · rw [if_pos hac] at h
        injection h with h
        subst h
        simpa using hac
      · rw [if_neg hac] at h
        exact absurd h (by simp)

/-- Claim C10: the stage 3a quote insertion is produced only when all
of its guards hold: the rendered error message yields a line and
column, the line number does not exceed the number of lines, the
right-stripped offending line does not end in a double or single
quote, and the line has a double quote before the reported column;
moreover every reported line number is at least 1, so under the guard
the accessed line index is in range. -/
theorem claim10_insertion_guards (t errS mutated : String)
    (h : stage3aCandidate t errS = some mutated) :
    (∃ lineNum colNum problemLine,
      searchLineCol errS.data = some (lineNum, colNum) ∧
      lineNum ≤ (pySplitLines t).length ∧
      pyIdx (pySplitLines t) ((lineNum : Int) - 1) = some problemLine ∧
      (pyRstripList problemLine.data).getLast? ≠ some qc ∧
      (pyRstripList problemLine.data).getLast? ≠ some sqc ∧
      (rfindIn (problemLine.data.take colNum) qc).isSome = true) ∧
    (∀ pos : Nat, 1 ≤ (lineColOf t pos).1 ∧
      ((lineColOf t pos).1 ≤ (pySplitLines t).length →
        (lineColOf t pos).1 - 1 < (pySplitLines t).length)) := by
  constructor
  · unfold stage3aCandidate at h
    split at h
    · exact absurd h (by simp)
    next lineNum colNum heq =>
      split at h
      · next hle =>
        split at h
        · exact absurd h (by simp)
        next pl hpl =>
          split at h
          · exact absurd h (by simp)
          next hq =>
            split at h
            · exact absurd h (by simp)
            next w hw =>
              push_neg at hq
              exact ⟨lineNum, colNum, pl, heq, hle, hpl, hq.1, hq.2, by simp [hw]⟩
      · exact absurd h (by simp)
  · intro pos
    constructor
    · simp [lineColOf]
    · intro hle
      have h1 : 1 ≤ (lineColOf t pos).1 := by simp [lineColOf]
      omega

/-- Witness for claim C10: on the input with an unterminated string
`{"a": "b`, the insertion fires and all guards were checked. -/
theorem claim10_insertion_guards_witness :
    stage3aCandidate c10Input c10ErrS = some c10Mutated ∧
    (searchLineCol c10ErrS.data).isSome = true := by
  have h : stage3aCandidate c10Input c10ErrS = some c10Mutated := by decide
  obtain ⟨⟨ln, cn, pl, h1, -⟩, -⟩ :=
    claim10_insertion_guards c10Input c10ErrS c10Mutated h
  exact ⟨h, by simp [h1]⟩

/-- Counterexample for claim C6: on the input `[{"a": "}]g]` the
failed stage 3a insertion leaves its mutation in the working text, and
the code's result differs from the pipeline that claim C6 describes,
in which stage 3b and stage 4 re-run on the stage-2-normalized text. -/
theorem claim6_counterexample :
    parseJsonWithRecovery c6Input "json" ≠ parseJsonWithRecoveryIndep c6Input "json" := by
  decide

/-- Claim C6 as amended: when stage 3a produces an insertion candidate
and its decode attempt fails, the pipeline continues with the MUTATED
text: stage 3b's truncation repair and stage 4's embedded-object
extraction both run on the text with the quote inserted, not on the
stage-2-normalized text (only the truncation candidate itself is not
propagated). -/
theorem claim6_amended (ft errS ctx mutated : String) (e : JsonError)
    (h1 : stage3aCandidate ft errS = some mutated)
    (h2 : loads mutated = Except.error e) :
    stage3Untermin ft errS ctx =
      ⟨(stage3Trunc mutated ctx).value, (stage3Trunc mutated ctx).attempts + 1,
        (stage3Trunc mutated ctx).fellBack⟩ := by
  simp only [stage3Untermin, h1, h2]

/-- Witness for the amended claim C6 at the concrete input
`[{"a": "}]g]`. -/
theorem claim6_amended_witness :
    stage3aCandidate c6Input c6ErrS = some c6Mutated ∧
    loads c6Mutated = Except.error ⟨"Extra data", 11⟩ ∧
    stage3Untermin c6Input c6ErrS "json" =
      ⟨(stage3Trunc c6Mutated "json").value, (stage3Trunc c6Mutated "json").attempts + 1,
        (stage3Trunc c6Mutated "json").fellBack⟩ :=
  ⟨by decide, by decide,
   claim6_amended c6Input c6ErrS "json" c6Mutated ⟨"Extra data", 11⟩ (by decide) (by decide)⟩

/-- Counterexample for claim C8: on the input `"]` the code's stage 3b
candidate is `""]` (the final quote appears twice), not the
`"]` that building the candidate from each character of the original
text once would give. -/
theorem claim8_counterexample :
    truncationCandidate c8Input ≠ truncationCandidateSpec c8Input := by
  decide

/-- Claim C8 as amended: the stage 3b candidate concatenates the text
up to AND INCLUDING the last double quote with the segment from that
same quote through the nearest following closer, so the quote
character appears twice, before the balancing closers are appended. -/
theorem claim8_amended (t : String) (q e : Nat)
    (h1 : rfindIn t.data qc = some q)
    (h2 : minOpt ((t.data.drop q).findIdx? (fun c => c = '}'))
        ((t.data.drop q).findIdx? (fun c => c = ']')) = some e) :
    (t.data.drop q).take (e + 1) = qc :: ((t.data.drop (q + 1)).take e) ∧
    truncationCandidate t =
      some (String.mk (truncCore t q e ++ balanceClosers (truncCore t q e))) := by
  have hget := rfindIn_get h1
  rw [List.get?_eq_some] at hget
  obtain ⟨hlt, hq⟩ := hget
  have hdrop : t.data.drop q = qc :: t.data.drop (q + 1) := by
    rw [List.drop_eq_getElem_cons hlt]
    simp [← hq]
  have htake : (t.data.drop q).take (e + 1) = qc :: ((t.data.drop (q + 1)).take e) := by
    rw [hdrop, List.take_succ_cons]
  refine ⟨htake, ?_⟩
  simp only [truncationCandidate, h1, h2, htake]
  unfold truncCore balanceClosers
  simp [List.append_assoc]

/-- Witness for the amended claim C8 at the input `"]` with the last
quote at index 0 and the nearest closer one character later. -/
theorem claim8_amended_witness :
    rfindIn c8Input.data qc = some 0 ∧
    minOpt ((c8Input.data.drop 0).findIdx? (fun c => c = '}'))
        ((c8Input.data.drop 0).findIdx? (fun c => c = ']')) = some 1 ∧
    truncationCandidate c8Input =
      some (String.mk (truncCore c8Input 0 1 ++ balanceClosers (truncCore c8Input 0 1))) :=
  ⟨by decide, by decide, (claim8_amended c8Input 0 1 (by decide) (by decide)).2⟩

/-! ### Claim C7: substring-search lemmas and the fence step -/

theorem isPrefixOf_eq_true_iff {l1 l2 : List Char} :
    l1.isPrefixOf l2 = true ↔ l1 <+: l2 := by
  exact List.isPrefixOf_iff_prefix

theorem hasSub_of_isPrefixOf_drop {n l : List Char} {k : Nat}
    (h : n.isPrefixOf (l.drop k) = true) : listHasSub n l = true := by
  induction l generalizing k with
  | nil =>
    rw [List.drop_nil] at h
    unfold listHasSub
    simp [h]
  | cons a t ih =>
    cases k with
    | zero =>
      rw [List.drop_zero] at h
      unfold listHasSub
      simp [h]
    | succ k =>
      rw [List.drop_succ_cons] at h
      have ht := ih h
      unfold listHasSub
      simp [ht]

theorem hasSub_false_drop {n l : List Char} (h : listHasSub n l = false) (k : Nat) :
    n.isPrefixOf (l.drop k) = false := by
  cases hp : n.isPrefixOf (l.drop k)
  · rfl
  · exact absurd (hasSub_of_isPrefixOf_drop hp) (by simp [h])

theorem hasSub_of_findSub {n l : List Char} {i : Nat}
    (h : listFindSub n l = some i) : listHasSub n l = true := by
  induction l generalizing i with
  | nil =>
    unfold listFindSub at h
    unfold listHasSub
    cases hp : n.isPrefixOf ([] : List Char)
    · rw [hp] at h; simp at h
    · simp [hp]
  | cons a t ih =>
    unfold listFindSub at h
    unfold listHasSub
    cases hp : n.isPrefixOf (a :: t)
    · rw [hp] at h
      simp only [Bool.false_eq_true, if_false] at h ⊢
      obtain ⟨j, hj, -⟩ := Option.map_eq_some'.mp h
      exact ih hj
    · simp [hp]

theorem listFindSub_first (n a r : List Char)
    (hfront : ∀ k, k < a.length → n.isPrefixOf ((a ++ (n ++ r)).drop k) = false) :
    listFindSub n (a ++ (n ++ r)) = some a.length := by
  induction a with
  | nil =>
    simp only [List.nil_append]
    unfold listFindSub
    have hp : n.isPrefixOf (n ++ r) = true := by
      rw [isPrefixOf_eq_true_iff]; exact List.prefix_append n r
    simp [hp]
  | cons x a' ih =>
    have h0 := hfront 0 (by simp)
    rw [List.drop_zero] at h0
    have hrec := ih (fun k hk => by
      have := hfront (k + 1) (by simpa using Nat.succ_lt_succ hk)
      simpa using this)
    unfold listFindSub
    rw [List.cons_append] at h0 ⊢
    simp [h0, hrec]

theorem front_no_fence (A r : List Char) (h1 : listHasSub fenceMarker A = false)
    (h2 : A.getLast? ≠ some tickc) :
    ∀ k, k < A.length → fenceMarker.isPrefixOf ((A ++ r).drop k) = false := by
  intro k hk
  cases hp : fenceMarker.isPrefixOf ((A ++ r).drop k)
  · rfl
  · exfalso
    rw [isPrefixOf_eq_true_iff] at hp
    have hdk : (A ++ r).drop k = A.drop k ++ r := by
      rw [List.drop_append_eq_append_drop, Nat.sub_eq_zero_of_le (le_of_lt hk),
        List.drop_zero]
    rw [hdk] at hp
    obtain ⟨s, hs⟩ := hp
    have hdlen : 0 < (A.drop k).length := by
      rw [List.length_drop]; omega
    cases hdd : A.drop k with
    | nil => rw [hdd] at hdlen; simp at hdlen
    | cons x d1 =>
      cases hd1 : d1 with
      | nil =>
        rw [hdd, hd1] at hs
        simp only [fenceMarker, List.cons_append, List.nil_append,
          List.cons.injEq] at hs
        have hx : x = tickc := hs.1.symm
        have hLast : A.getLast? = some x := by
          conv_lhs => rw [← List.take_append_drop k A]
          rw [List.getLast?_append, hdd, hd1]
          simp
        exact h2 (hx ▸ hLast)
      | cons y d2 =>
        cases hd2 : d2 with
        | nil =>
          rw [hdd, hd1, hd2] at hs
          simp only [fenceMarker, List.cons_append, List.nil_append,
            List.cons.injEq] at hs
          have hy : y = tickc := hs.2.1.symm
          have hLast : A.getLast? = some y := by
            conv_lhs => rw [← List.take_append_drop k A]
            rw [List.getLast?_append, hdd, hd1, hd2]
            simp
          exact h2 (hy ▸ hLast)
        | cons z d3 =>
          rw [hdd, hd1, hd2] at hs
          simp only [fenceMarker, List.cons_append, List.cons.injEq] at hs
          have hpre : fenceMarker.isPrefixOf (A.drop k) = true := by
            rw [hdd, hd1, hd2, ← hs.1, ← hs.2.1, ← hs.2.2.1]
            simp [fenceMarker, isPrefixOf_eq_true_iff]
          exact absurd (hasSub_of_isPrefixOf_drop hpre) (by simp [h1])

/-- Counterexample for claim C7: on the three-fence text
`` ```json 1 ``` 2 ``` `` the normalization yields `1` (content up to
the NEAREST fence), whereas the claimed extraction between the first
fence and the LAST fence would yield `1 ``` 2`; so the claimed content
is not what the stage-2 decode retry runs on. -/
theorem claim7_counterexample :
    listHasSub fenceMarker (preNorm c7Input).data = true ∧
    fenceExtractLastSpec (preNorm c7Input) = some "1 ``` 2" ∧
    stage2Normalize c7Input ≠ "1 ``` 2" := by
  refine ⟨by decide, by decide, by decide⟩

/-- Claim C7 as amended: whenever the working text decomposes around a
first fence (labeled `json`) and the NEAREST following fence, stage 2
extracts exactly the stripped content between those two fences, and
that extracted content is what the stage-2 decode retry is run on. -/
theorem claim7_amended (a b c2 : String)
    (h1 : listHasSub fenceMarker a.data = false)
    (h2 : a.data.getLast? ≠ some tickc)
    (h3 : listHasSub fenceMarker b.data = false)
    (h4 : b.data.getLast? ≠ some tickc) :
    fenceExtract (a ++ "```json" ++ b ++ "```" ++ c2) =
      some (String.mk (pyStripList b.data)) ∧
    (∀ t inner, fenceExtract (preNorm t) = some inner → stage2Normalize t = inner) := by
  constructor
  · have hdata : (a ++ "```json" ++ b ++ "```" ++ c2).data
        = a.data ++ (fenceMarker ++ ("json".data ++ (b.data ++ (fenceMarker ++ c2.data)))) := by
      have hfd : ("```json" : String).data = fenceMarker ++ "json".data := by decide
      have hf3 : ("```" : String).data = fenceMarker := by decide
      rw [show (a ++ "```json" ++ b ++ "```" ++ c2).data
          = a.data ++ "```json".data ++ b.data ++ "```".data ++ c2.data by
        simp only [String.data_append], hfd, hf3]
      simp only [List.append_assoc]
    have hfind1 : listFindSub fenceMarker ((a ++ "```json" ++ b ++ "```" ++ c2).data)
        = some a.data.length := by
      rw [hdata]
      exact listFindSub_first fenceMarker a.data
        ("json".data ++ (b.data ++ (fenceMarker ++ c2.data)))
        (front_no_fence a.data _ h1 h2)
    have hdrop1 : ((a ++ "```json" ++ b ++ "```" ++ c2).data).drop (a.data.length + 3)
        = "json".data ++ (b.data ++ (fenceMarker ++ c2.data)) := by
      rw [hdata, ← List.append_assoc]
      have hlen : a.data.length + 3 = (a.data ++ fenceMarker).length := by
        simp [fenceMarker]
      rw [hlen, List.drop_left]
    have hrest : fenceRest (a ++ "```json" ++ b ++ "```" ++ c2) a.data.length
        = b.data ++ (fenceMarker ++ c2.data) := by
      unfold fenceRest
      rw [hdrop1]
      have hjson : "json".data.isPrefixOf
          ("json".data ++ (b.data ++ (fenceMarker ++ c2.data))) = true := by
        rw [isPrefixOf_eq_true_iff]; exact List.prefix_append _ _
      rw [if_pos hjson]
      have h4len : (4 : Nat) = "json".data.length := by decide
      rw [h4len, List.drop_left]
    have hfind2 : listFindSub fenceMarker (fenceRest
        (a ++ "```json" ++ b ++ "```" ++ c2) a.data.length) = some b.data.length := by
      rw [hrest]
      exact listFindSub_first fenceMarker b.data c2.data
        (front_no_fence b.data _ h3 h4)
    unfold fenceExtract
    simp only [hfind1, hfind2]
    rw [hrest, List.take_left]
  · intro t inner hfe
    have hcont : listHasSub fenceMarker (preNorm t).data = true := by
      unfold fenceExtract at hfe
      split at hfe
      · exact absurd hfe (by simp)
      next i hi => exact hasSub_of_findSub hi
    unfold preNorm at hfe hcont
    simp only [stage2Normalize]
    simp [hcont, hfe]

/-- Witness for the amended claim C7 at a concrete three-part text. -/
theorem claim7_amended_witness :
    listHasSub fenceMarker ("prose " : String).data = false ∧
    ("prose " : String).data.getLast? ≠ some tickc ∧
    listHasSub fenceMarker (" 1 " : String).data = false ∧
    (" 1 " : String).data.getLast? ≠ some tickc ∧
    fenceExtract ("prose " ++ "```json" ++ " 1 " ++ "```" ++ " tail") =
      some (String.mk (pyStripList (" 1 " : String).data)) :=
  ⟨by decide, by decide, by decide, by decide,
   (claim7_amended "prose " " 1 " " tail" (by decide) (by decide) (by decide)
     (by decide)).1⟩
